import Mathlib

/-!
Shallow embedding of the cat re-identification and sighting-reconciliation
core of the purrfect-sightings repository.

The similarity scorer and match resolver are embedded from
`src/supabase/functions/identify-cat/index.ts` (the feature comparison loop,
lines 188-238, and the parse-failure fallback, lines 154-173).  The
reconciliation operations `createCat`, `addSighting` and the `handleSave`
commit entry point are embedded from the `useCats` hook and the profile
component (`src/unnamed/part_003`), with the store modelled explicitly and
the foreign-key constraint of `cat_sightings.cat_id` taken from the SQL
migration.  JavaScript numbers are modelled as rationals; a JavaScript
`TypeError` thrown by calling `.filter` on an `undefined` field is modelled
as an `Except.error`; optional / possibly-`undefined` values are `Option`.
-/

namespace Purrfect

/-- Feature record extracted from a photo: the JSON object produced by the
vision model (or read back from the `ai_features` JSONB column).  Every
field may be absent, matching `undefined` in the source. -/
structure CatFeatures where
  breed : Option String
  colors : Option (List String)
  patterns : Option (List String)
  distinctive_features : Option (List String)
  estimated_age : Option String
  size : Option String
  similarity_score : Option ℚ
deriving DecidableEq

/-- Row of the `cats` table (migration lines 29-39, `Cat` interface in the
`useCats` hook). -/
structure Cat where
  id : String
  name : String
  description : Option String
  image_url : Option String
  ai_features : Option CatFeatures
  created_by : String
  created_at : String
  updated_at : String
deriving DecidableEq

/-- Row of the `cat_sightings` table (migration lines 61-70, `CatSighting`
interface in the `useCats` hook). -/
structure CatSighting where
  id : String
  cat_id : String
  latitude : ℚ
  longitude : ℚ
  spotted_by : String
  spotted_at : String
  notes : Option String
deriving DecidableEq

/-- Body of the success response of the identify-cat edge function
(index.ts lines 231-238): best candidate, its score, and the threshold
decision `bestMatchScore >= 70`. -/
structure MatchOutcome where
  existing_cat : Option Cat
  match_score : ℚ
  is_likely_same_cat : Bool
deriving DecidableEq

/-- Error produced when the scorer evaluates `features.colors.filter`
(or `.patterns` / `.distinctive_features`) on an `undefined` query field:
in JavaScript this throws a `TypeError` which aborts the request. -/
inductive ScoreError where
  | typeError
deriving DecidableEq

/-- JavaScript `arr?.includes(x)` where `arr` may be `undefined`: an
`undefined` array yields `undefined`, which is falsy in the `filter`
callback, so it behaves as `false`. -/
def optIncludes (arr : Option (List String)) (x : String) : Bool :=
  match arr with
  | none => false
  | some l => l.contains x

/-- Breed comparison of index.ts line 200:
`if (existingFeatures.breed === features.breed) matchScore += 20`.
JavaScript strict equality on two possibly-`undefined` strings is exactly
equality of the two `Option String` values (`undefined === undefined` is
`true`). -/
def breedTerm (existingFeatures queryFeatures : CatFeatures) : ℚ :=
  if existingFeatures.breed = queryFeatures.breed then 20 else 0

/-- One overlap contribution of index.ts lines 202-218:
`(qs.filter(x => cand?.includes(x)).length / Math.max(qs.length, 1)) * w`. -/
def overlapVal (qs : List String) (cand : Option (List String)) (w : ℚ) : ℚ :=
  (((qs.filter fun x => optIncludes cand x).length : ℚ)
      / ((max qs.length 1 : ℕ) : ℚ)) * w

/-- Similarity score of index.ts lines 196-218.  The three query arrays are
read with plain field access (`features.colors.filter(...)` etc.), so if any
of them is `undefined` the computation throws before producing a score;
candidate fields are read with optional chaining and default to no matches.
There is no clamping step in the source. -/
def catScore (existingFeatures queryFeatures : CatFeatures) : Except ScoreError ℚ :=
  match queryFeatures.colors, queryFeatures.patterns,
      queryFeatures.distinctive_features with
  | some qc, some qp, some qd =>
      .ok (breedTerm existingFeatures queryFeatures
        + overlapVal qc existingFeatures.colors 25
        + overlapVal qp existingFeatures.patterns 25
        + overlapVal qd existingFeatures.distinctive_features 30)
  | _, _, _ => .error .typeError

/-- Total value of the score on the domain where the query arrays are
present; companion of `catScore` used to state resolver properties. -/
def scoreVal (existingFeatures queryFeatures : CatFeatures) : ℚ :=
  breedTerm existingFeatures queryFeatures
    + overlapVal (queryFeatures.colors.getD []) existingFeatures.colors 25
    + overlapVal (queryFeatures.patterns.getD []) existingFeatures.patterns 25
    + overlapVal (queryFeatures.distinctive_features.getD [])
        existingFeatures.distinctive_features 30

instance {ε α : Type} [DecidableEq ε] [DecidableEq α] : DecidableEq (Except ε α)
  | .error a, .error b =>
      if h : a = b then .isTrue (congrArg Except.error h)
      else .isFalse fun hh => h (Except.error.inj hh)
  | .error _, .ok _ => .isFalse fun hh => Except.noConfusion hh
  | .ok _, .error _ => .isFalse fun hh => Except.noConfusion hh
  | .ok a, .ok b =>
      if h : a = b then .isTrue (congrArg Except.ok h)
      else .isFalse fun hh => h (Except.ok.inj hh)

lemma catScore_eq_scoreVal (cand q : CatFeatures) (qc qp qd : List String)
    (hc : q.colors = some qc) (hp : q.patterns = some qp)
    (hd : q.distinctive_features = some qd) :
    catScore cand q = .ok (scoreVal cand q) := by
  simp [catScore, scoreVal, hc, hp, hd]

lemma overlapVal_empty (cand : Option (List String)) (w : ℚ) :
    overlapVal [] cand w = 0 := by
  simp [overlapVal]

lemma overlapVal_nonneg (qs : List String) (cand : Option (List String))
    (w : ℚ) (hw : 0 ≤ w) : 0 ≤ overlapVal qs cand w := by
  unfold overlapVal
  have h1 : (0 : ℚ) ≤ ((qs.filter fun x => optIncludes cand x).length : ℚ) :=
    Nat.cast_nonneg _
  have h2 : (0 : ℚ) ≤ ((max qs.length 1 : ℕ) : ℚ) := Nat.cast_nonneg _
  exact mul_nonneg (div_nonneg h1 h2) hw

lemma overlapVal_le (qs : List String) (cand : Option (List String))
    (w : ℚ) (hw : 0 ≤ w) : overlapVal qs cand w ≤ w := by
  unfold overlapVal
  have hden : (0 : ℚ) < ((max qs.length 1 : ℕ) : ℚ) := by
    exact_mod_cast Nat.lt_of_lt_of_le Nat.zero_lt_one (le_max_right qs.length 1)
  have hnum : ((qs.filter fun x => optIncludes cand x).length : ℚ)
      ≤ ((max qs.length 1 : ℕ) : ℚ) := by
    exact_mod_cast le_trans (List.length_filter_le _ qs) (le_max_left qs.length 1)
  calc ((qs.filter fun x => optIncludes cand x).length : ℚ)
        / ((max qs.length 1 : ℕ) : ℚ) * w
      ≤ 1 * w := by
        exact mul_le_mul_of_nonneg_right ((div_le_one hden).mpr hnum) hw
    _ = w := one_mul w

lemma breedTerm_bounds (cand q : CatFeatures) :
    0 ≤ breedTerm cand q ∧ breedTerm cand q ≤ 20 := by
  unfold breedTerm
  split <;> norm_num

lemma filter_optIncludes_eq_inter (qs : List String)
    (cand : Option (List String)) :
    (qs.filter fun x => optIncludes cand x) = qs ∩ cand.getD [] := by
  cases cand with
  | none =>
      simp only [Option.getD_none, Inter.inter, List.inter]
      apply List.filter_congr
      intro x _
      simp [optIncludes]
  | some l =>
      simp only [Option.getD_some, Inter.inter, List.inter]
      apply List.filter_congr
      intro x _
      simp [optIncludes, List.contains]

/-- Feature record of the §8 example scenario, used as a concrete input. -/
def featuresW : CatFeatures :=
  { breed := some "domestic_shorthair", colors := some ["orange", "white"],
    patterns := some ["tabby"], distinctive_features := some ["white paws"],
    estimated_age := some "adult", size := some "medium",
    similarity_score := some 80 }

/-- Candidate record with no breed and empty arrays, a concrete input. -/
def breedlessCand : CatFeatures :=
  { breed := none, colors := some [], patterns := some [],
    distinctive_features := some [], estimated_age := none, size := none,
    similarity_score := none }

/-- Query record with no breed, a concrete input. -/
def breedlessQuery : CatFeatures :=
  { breed := none, colors := some ["orange"], patterns := some [],
    distinctive_features := some [], estimated_age := none, size := none,
    similarity_score := none }

/-- Query record whose `colors` field is absent, a concrete input. -/
def qMissingColors : CatFeatures :=
  { breed := some "tabby", colors := none, patterns := some ["solid"],
    distinctive_features := some [], estimated_age := none, size := none,
    similarity_score := none }

/-- C4: when the query's colors, patterns and distinctive-features arrays are
present, the score equals the breed term plus
`25 * (|qColors ∩ cColors| / max(|qColors|, 1))`, plus the same with weight 25
for patterns, plus the same with weight 30 for distinctive features; and an
empty query array contributes 0 to its dimension regardless of candidate
content. -/
theorem catScore_overlap_contributions (cand q : CatFeatures)
    (qc qp qd : List String)
    (hc : q.colors = some qc) (hp : q.patterns = some qp)
    (hd : q.distinctive_features = some qd) :
    catScore cand q = .ok (breedTerm cand q
        + 25 * (((qc ∩ cand.colors.getD []).length : ℚ)
            / ((max qc.length 1 : ℕ) : ℚ))
        + 25 * (((qp ∩ cand.patterns.getD []).length : ℚ)
            / ((max qp.length 1 : ℕ) : ℚ))
        + 30 * (((qd ∩ cand.distinctive_features.getD []).length : ℚ)
            / ((max qd.length 1 : ℕ) : ℚ)))
      ∧ ∀ (l : Option (List String)) (w : ℚ), overlapVal [] l w = 0 := by
  constructor
  · have key : ∀ (qs : List String) (l : Option (List String)) (w : ℚ),
        overlapVal qs l w
          = w * (((qs ∩ l.getD []).length : ℚ) / ((max qs.length 1 : ℕ) : ℚ)) := by
      intro qs l w
      rw [overlapVal, filter_optIncludes_eq_inter, mul_comm]
    simp only [catScore, hc, hp, hd]
    rw [key, key, key]
  · intro l w
    exact overlapVal_empty l w

theorem catScore_overlap_contributions_witness :
    overlapVal [] (some ["orange"]) 25 = 0 :=
  (catScore_overlap_contributions featuresW featuresW
    ["orange", "white"] ["tabby"] ["white paws"] rfl rfl rfl).2 (some ["orange"]) 25

/-- C5 counterexample: with both breeds absent the source's strict equality
`existingFeatures.breed === features.breed` compares `undefined` with
`undefined` and awards the 20-point breed bonus, while the claim requires a
0 contribution when a breed is absent; replacing only the candidate's absent
breed by a present one drops the score from 20 to 0, so the 20 comes entirely
from the breed term. -/
theorem breed_absent_bonus_cex :
    breedlessCand.breed = none ∧ breedlessQuery.breed = none ∧
    catScore breedlessCand breedlessQuery = .ok 20 ∧
    catScore { breedlessCand with breed := some "siamese" } breedlessQuery
      = .ok 0 := by
  refine ⟨rfl, rfl, ?_, ?_⟩
  · norm_num [catScore, breedTerm, overlapVal, optIncludes,
      breedlessCand, breedlessQuery]
  · norm_num [catScore, breedTerm, overlapVal, optIncludes,
      breedlessCand, breedlessQuery]
    simp

/-- C5 amended: the breed term of the score is 20 exactly when the candidate
and query breeds are equal as optional values — both present and equal, or
both absent — and 0 in every other case (one absent, or both present and
different); with empty query arrays the whole score reduces to this term. -/
theorem breedTerm_characterization (cand q : CatFeatures) :
    (breedTerm cand q = 20 ∨ breedTerm cand q = 0) ∧
    (breedTerm cand q = 20 ↔
      ((∃ b, cand.breed = some b ∧ q.breed = some b)
        ∨ (cand.breed = none ∧ q.breed = none))) ∧
    (q.colors = some [] → q.patterns = some [] →
      q.distinctive_features = some [] →
      catScore cand q = .ok (breedTerm cand q)) := by
  refine ⟨?_, ?_, ?_⟩
  · unfold breedTerm
    split
    · exact Or.inl rfl
    · exact Or.inr rfl
  · unfold breedTerm
    split
    case isTrue h =>
      apply iff_of_true rfl
      cases hq : q.breed with
      | none => exact Or.inr ⟨h.trans hq, rfl⟩
      | some b => exact Or.inl ⟨b, h.trans hq, rfl⟩
    case isFalse h =>
      apply iff_of_false (by norm_num)
      rintro (⟨b, hb1, hb2⟩ | ⟨h1, h2⟩)
      · exact h (hb1.trans hb2.symm)
      · exact h (h1.trans h2.symm)
  · intro h1 h2 h3
    rw [catScore_eq_scoreVal cand q [] [] [] h1 h2 h3]
    simp [scoreVal, h1, h2, h3, overlapVal_empty]

theorem breedTerm_characterization_witness :
    catScore breedlessCand breedlessCand
      = .ok (breedTerm breedlessCand breedlessCand) :=
  (breedTerm_characterization breedlessCand breedlessCand).2.2 rfl rfl rfl

/-- C6 counterexample: when the query record's `colors` field is absent, the
source evaluates `features.colors.filter(...)` on `undefined` and throws a
`TypeError` instead of returning a score, so the score computation does not
return a value for every pair of feature records. -/
theorem catScore_absent_field_error_cex :
    catScore breedlessCand qMissingColors = .error .typeError := by
  decide

/-- C6 amended: for every pair of feature records in which the query's
colors, patterns and distinctive-features arrays are present (the query breed
and all candidate fields may still be absent), the score computation returns
a value, and that value is at least 0 and at most 100; when a query array
field is absent the computation instead throws. -/
theorem catScore_bounds_when_defined (cand q : CatFeatures)
    (qc qp qd : List String)
    (hc : q.colors = some qc) (hp : q.patterns = some qp)
    (hd : q.distinctive_features = some qd) :
    ∃ v : ℚ, catScore cand q = .ok v ∧ 0 ≤ v ∧ v ≤ 100 := by
  refine ⟨scoreVal cand q, catScore_eq_scoreVal cand q qc qp qd hc hp hd, ?_, ?_⟩
  · unfold scoreVal
    have h0 := (breedTerm_bounds cand q).1
    have h1 := overlapVal_nonneg (q.colors.getD []) cand.colors 25 (by norm_num)
    have h2 := overlapVal_nonneg (q.patterns.getD []) cand.patterns 25 (by norm_num)
    have h3 := overlapVal_nonneg (q.distinctive_features.getD [])
      cand.distinctive_features 30 (by norm_num)
    linarith
  · unfold scoreVal
    have h0 := (breedTerm_bounds cand q).2
    have h1 := overlapVal_le (q.colors.getD []) cand.colors 25 (by norm_num)
    have h2 := overlapVal_le (q.patterns.getD []) cand.patterns 25 (by norm_num)
    have h3 := overlapVal_le (q.distinctive_features.getD [])
      cand.distinctive_features 30 (by norm_num)
    linarith

theorem catScore_bounds_when_defined_witness :
    ∃ v : ℚ, catScore breedlessCand featuresW = .ok v ∧ 0 ≤ v ∧ v ≤ 100 :=
  catScore_bounds_when_defined breedlessCand featuresW
    ["orange", "white"] ["tabby"] ["white paws"] rfl rfl rfl

/-- Matching loop of index.ts lines 189-227, carried state
`(bestMatch, bestMatchScore)` starting from `(null, 0)`: cats without
`ai_features` are skipped; the best match is replaced only when
`matchScore > bestMatchScore && matchScore >= 70`; a score computation that
throws aborts the whole request. -/
def resolveAux (query : CatFeatures) :
    List Cat → Option Cat × ℚ → Except ScoreError (Option Cat × ℚ)
  | [], st => .ok st
  | c :: rest, st =>
    match c.ai_features with
    | none => resolveAux query rest st
    | some f =>
      match catScore f query with
      | .error e => .error e
      | .ok sc =>
        if st.2 < sc ∧ 70 ≤ sc then resolveAux query rest (some c, sc)
        else resolveAux query rest st

/-- Match resolver of the identify-cat edge function: runs the loop over the
catalog (ordered most-recent-first, as fetched with
`order(created_at, descending)`) and builds the response of lines 231-238,
with `is_likely_same_cat := bestMatchScore >= 70`. -/
def resolve (query : CatFeatures) (catalog : List Cat) :
    Except ScoreError MatchOutcome :=
  match resolveAux query catalog (none, 0) with
  | .error e => .error e
  | .ok st => .ok ⟨st.1, st.2, decide (70 ≤ st.2)⟩

/-- Total companion of `resolveAux` on the domain where the score never
throws, using `scoreVal` in place of `catScore`. -/
def resolveAuxT (query : CatFeatures) :
    List Cat → Option Cat × ℚ → Option Cat × ℚ
  | [], st => st
  | c :: rest, st =>
    match c.ai_features with
    | none => resolveAuxT query rest st
    | some f =>
      if st.2 < scoreVal f query ∧ 70 ≤ scoreVal f query then
        resolveAuxT query rest (some c, scoreVal f query)
      else resolveAuxT query rest st

lemma resolveAux_ok (q : CatFeatures) (qc qp qd : List String)
    (hc : q.colors = some qc) (hp : q.patterns = some qp)
    (hd : q.distinctive_features = some qd) :
    ∀ (cs : List Cat) (st : Option Cat × ℚ),
      resolveAux q cs st = .ok (resolveAuxT q cs st) := by
  intro cs
  induction cs with
  | nil => intro st; rfl
  | cons c rest ih =>
      intro st
      cases hf : c.ai_features with
      | none => simp [resolveAux, resolveAuxT, hf, ih]
      | some f =>
          have hs := catScore_eq_scoreVal f q qc qp qd hc hp hd
          simp only [resolveAux, resolveAuxT, hf, hs]
          split <;> exact ih _

lemma resolveAuxT_spec (q : CatFeatures) :
    ∀ (cs : List Cat) (st : Option Cat × ℚ),
      st.2 ≤ (resolveAuxT q cs st).2 ∧
      (∀ d ∈ cs, ∀ g, d.ai_features = some g → 70 ≤ scoreVal g q →
          scoreVal g q ≤ (resolveAuxT q cs st).2) ∧
      (resolveAuxT q cs st = st ∨
        ∃ c f cs1 cs2, cs = cs1 ++ c :: cs2 ∧
          (resolveAuxT q cs st).1 = some c ∧ c.ai_features = some f ∧
          (resolveAuxT q cs st).2 = scoreVal f q ∧ 70 ≤ scoreVal f q ∧
          st.2 < scoreVal f q ∧
          (∀ d ∈ cs1, ∀ g, d.ai_features = some g → 70 ≤ scoreVal g q →
              scoreVal g q < scoreVal f q)) := by
  intro cs
  induction cs with
  | nil =>
      intro st
      exact ⟨le_refl _, by simp, Or.inl rfl⟩
  | cons c rest ih =>
      intro st
      cases hf : c.ai_features with
      | none =>
          have hstep : resolveAuxT q (c :: rest) st = resolveAuxT q rest st := by
            simp [resolveAuxT, hf]
          obtain ⟨h1, h2, h3⟩ := ih st
          rw [hstep]
          refine ⟨h1, ?_, ?_⟩
          · intro d hd g hdg hg
            rcases List.mem_cons.mp hd with rfl | hd2
            · rw [hf] at hdg; cases hdg
            · exact h2 d hd2 g hdg hg
          · rcases h3 with heq | ⟨c2, f2, cs1, cs2, hcs, ha, hb, hsc, h70, hlt, hearl⟩
            · exact Or.inl heq
            · refine Or.inr ⟨c2, f2, c :: cs1, cs2, by rw [hcs]; rfl,
                ha, hb, hsc, h70, hlt, ?_⟩
              intro d hd g hdg hg
              rcases List.mem_cons.mp hd with rfl | hd2
              · rw [hf] at hdg; cases hdg
              · exact hearl d hd2 g hdg hg
      | some f =>
          by_cases hcond : st.2 < scoreVal f q ∧ 70 ≤ scoreVal f q
          · have hstep : resolveAuxT q (c :: rest) st
                = resolveAuxT q rest (some c, scoreVal f q) := by
              simp [resolveAuxT, hf, hcond]
            obtain ⟨h1, h2, h3⟩ := ih (some c, scoreVal f q)
            rw [hstep]
            have h1x : scoreVal f q
                ≤ (resolveAuxT q rest (some c, scoreVal f q)).2 := h1
            refine ⟨le_of_lt (lt_of_lt_of_le hcond.1 h1x), ?_, ?_⟩
            · intro d hd g hdg hg
              rcases List.mem_cons.mp hd with rfl | hd2
              · have hgf : g = f := by
                  rw [hf] at hdg; exact (Option.some.inj hdg).symm
                rw [hgf]; exact h1x
              · exact h2 d hd2 g hdg hg
            · rcases h3 with heq | ⟨c2, f2, cs1, cs2, hcs, ha, hb, hsc, h70, hlt, hearl⟩
              · refine Or.inr ⟨c, f, [], rest, rfl, ?_, hf, ?_,
                  hcond.2, hcond.1, ?_⟩
                · rw [heq]
                · rw [heq]
                · intro d hd; cases hd
              · refine Or.inr ⟨c2, f2, c :: cs1, cs2, by rw [hcs]; rfl,
                  ha, hb, hsc, h70, lt_trans hcond.1 hlt, ?_⟩
                intro d hd g hdg hg
                rcases List.mem_cons.mp hd with rfl | hd2
                · have hgf : g = f := by
                    rw [hf] at hdg; exact (Option.some.inj hdg).symm
                  rw [hgf]; exact hlt
                · exact hearl d hd2 g hdg hg
          · have hstep : resolveAuxT q (c :: rest) st = resolveAuxT q rest st := by
              simp [resolveAuxT, hf, hcond]
            obtain ⟨h1, h2, h3⟩ := ih st
            rw [hstep]
            refine ⟨h1, ?_, ?_⟩
            · intro d hd g hdg hg
              rcases List.mem_cons.mp hd with rfl | hd2
              · have hgf : g = f := by
                  rw [hf] at hdg; exact (Option.some.inj hdg).symm
                have hle : scoreVal f q ≤ st.2 := by
                  by_contra hcon
                  exact hcond ⟨lt_of_not_le hcon, by rw [hgf] at hg; exact hg⟩
                rw [hgf]; exact le_trans hle h1
              · exact h2 d hd2 g hdg hg
            · rcases h3 with heq | ⟨c2, f2, cs1, cs2, hcs, ha, hb, hsc, h70, hlt, hearl⟩
              · exact Or.inl heq
              · refine Or.inr ⟨c2, f2, c :: cs1, cs2, by rw [hcs]; rfl,
                  ha, hb, hsc, h70, hlt, ?_⟩
                intro d hd g hdg hg
                rcases List.mem_cons.mp hd with rfl | hd2
                · have hgf : g = f := by
                    rw [hf] at hdg; exact (Option.some.inj hdg).symm
                  have hle : scoreVal f q ≤ st.2 := by
                    by_contra hcon
                    exact hcond ⟨lt_of_not_le hcon, by rw [hgf] at hg; exact hg⟩
                  rw [hgf]; exact lt_of_le_of_lt hle hlt
                · exact hearl d hd2 g hdg hg

/-- Catalog cat with the §8 example features, a concrete input. -/
def catW : Cat :=
  { id := "cat-1", name := "Whiskers", description := none,
    image_url := none, ai_features := some featuresW,
    created_by := "user-1", created_at := "2025-01-01",
    updated_at := "2025-01-01" }

/-- C3 counterexample: for a query record whose `colors` field is absent and
a catalog containing one cat with stored features, the resolver does not
return any MatchOutcome at all — the score computation inside the loop
throws, aborting the request — while the claim requires an outcome (here
with candidate none and score 0, since no cat can qualify). -/
theorem resolve_absent_field_cex :
    resolve qMissingColors [catW] = .error .typeError ∧
    ∀ o : MatchOutcome, resolve qMissingColors [catW] ≠ .ok o := by
  have h : resolve qMissingColors [catW] = .error .typeError := by decide
  refine ⟨h, fun o ho => ?_⟩
  rw [h] at ho
  exact Except.noConfusion ho

/-- C3 amended: for every query feature record whose colors, patterns and
distinctive-features arrays are present, and every catalog, the resolver
returns an outcome in which isLikelySameCat is true iff the score is at
least 70; if no featured cat scores at least 70 the outcome is candidate
none, score 0, isLikelySameCat false; a returned candidate is a cat with
stored features whose score is at least 70, strictly above every qualifying
featured cat earlier in catalog order (first-seen wins ties) and at least
every qualifying featured cat anywhere in the catalog; every qualifying
featured cat's score is bounded by the returned score; and whenever some
featured cat scores at least 70 a candidate is returned, so together with
the per-candidate characterization the outcome is exactly the first
highest-scoring qualifying cat.  (For a query record with an absent array
field the resolver instead throws whenever it meets a featured cat.) -/
theorem resolve_first_best_match (q : CatFeatures) (cats : List Cat)
    (qc qp qd : List String)
    (hc : q.colors = some qc) (hp : q.patterns = some qp)
    (hd : q.distinctive_features = some qd) :
    ∃ o : MatchOutcome, resolve q cats = .ok o ∧
      o.is_likely_same_cat = decide (70 ≤ o.match_score) ∧
      (o.existing_cat = none →
        o.match_score = 0 ∧ o.is_likely_same_cat = false) ∧
      ((∀ d ∈ cats, ∀ g, d.ai_features = some g → scoreVal g q < 70) →
        o = ⟨none, 0, false⟩) ∧
      (∀ c, o.existing_cat = some c →
        ∃ f cs1 cs2, cats = cs1 ++ c :: cs2 ∧ c.ai_features = some f ∧
          o.match_score = scoreVal f q ∧ 70 ≤ o.match_score ∧
          (∀ d ∈ cs1, ∀ g, d.ai_features = some g → 70 ≤ scoreVal g q →
              scoreVal g q < o.match_score) ∧
          (∀ d ∈ cats, ∀ g, d.ai_features = some g → 70 ≤ scoreVal g q →
              scoreVal g q ≤ o.match_score)) ∧
      (∀ d ∈ cats, ∀ g, d.ai_features = some g → 70 ≤ scoreVal g q →
          scoreVal g q ≤ o.match_score) ∧
      ((∃ d ∈ cats, ∃ g, d.ai_features = some g ∧ 70 ≤ scoreVal g q) →
          ∃ c, o.existing_cat = some c) := by
  have hok := resolveAux_ok q qc qp qd hc hp hd cats (none, 0)
  obtain ⟨h1, h2, h3⟩ := resolveAuxT_spec q cats (none, 0)
  refine ⟨⟨(resolveAuxT q cats (none, 0)).1, (resolveAuxT q cats (none, 0)).2,
    decide (70 ≤ (resolveAuxT q cats (none, 0)).2)⟩, ?_, rfl, ?_, ?_, ?_, ?_, ?_⟩
  · simp [resolve, hok]
  · dsimp only
    intro hnone
    rcases h3 with heq | ⟨c2, f2, cs1, cs2, hcs, ha, hb, hsc, h70, hlt, hearl⟩
    · have h0 : (resolveAuxT q cats (none, 0)).2 = 0 := by rw [heq]
      refine ⟨h0, ?_⟩
      simp only [h0]
      norm_num
    · exfalso
      rw [hnone] at ha
      cases ha
  · dsimp only
    intro hq
    rcases h3 with heq | ⟨c2, f2, cs1, cs2, hcs, ha, hb, hsc, h70, hlt, hearl⟩
    · have h0 : (resolveAuxT q cats (none, 0)).2 = 0 := by rw [heq]
      have hn : (resolveAuxT q cats (none, 0)).1 = none := by rw [heq]
      simp only [hn, h0]
      norm_num
    · exfalso
      have hmem : c2 ∈ cats := by
        rw [hcs]; exact List.mem_append_right _ (List.mem_cons_self _ _)
      exact absurd h70 (not_le.mpr (hq c2 hmem f2 hb))
  · dsimp only
    intro c hcand
    rcases h3 with heq | ⟨c2, f2, cs1, cs2, hcs, ha, hb, hsc, h70, hlt, hearl⟩
    · exfalso
      have hn : (resolveAuxT q cats (none, 0)).1 = none := by rw [heq]
      rw [hn] at hcand
      cases hcand
    · have hcc : c2 = c := Option.some.inj (ha.symm.trans hcand)
      subst hcc
      refine ⟨f2, cs1, cs2, hcs, hb, hsc, ?_, ?_, ?_⟩
      · rw [hsc]
        exact h70
      · intro d hd g hdg hg
        rw [hsc]
        exact hearl d hd g hdg hg
      · intro d hd g hdg hg
        exact h2 d hd g hdg hg
  · dsimp only
    exact h2
  · dsimp only
    rintro ⟨d, hd, g, hdg, hg⟩
    rcases h3 with heq | ⟨c2, f2, cs1, cs2, hcs, ha, hb, hsc, h70, hlt, hearl⟩
    · exfalso
      have hle := h2 d hd g hdg hg
      have h0 : (resolveAuxT q cats (none, 0)).2 = 0 := by rw [heq]
      rw [h0] at hle
      linarith
    · exact ⟨c2, ha⟩

theorem resolve_first_best_match_witness :
    ∃ o : MatchOutcome, resolve featuresW [catW] = .ok o ∧
      ∃ c, o.existing_cat = some c := by
  obtain ⟨o, hok, hlik, hnone, hmiss, hcand, hbound, hexists⟩ :=
    resolve_first_best_match featuresW [catW]
      ["orange", "white"] ["tabby"] ["white paws"] rfl rfl rfl
  refine ⟨o, hok, hexists ⟨catW, List.mem_cons_self _ _, featuresW, rfl, ?_⟩⟩
  norm_num [scoreVal, breedTerm, overlapVal, optIncludes, featuresW]

/-- Fallback record fabricated by index.ts lines 162-170 when `JSON.parse`
of the model response fails. -/
def fallbackFeatures : CatFeatures :=
  { breed := some "domestic_shorthair", colors := some ["unknown"],
    patterns := some ["solid"], distinctive_features := some [],
    estimated_age := some "adult", size := some "medium",
    similarity_score := some 50 }

/-- Extraction step of index.ts lines 154-171: `JSON.parse` of the model
message content; a parse failure is caught and silently replaced by
`fallbackFeatures`, after which processing continues as a success. -/
def parseFeatures (parsed : Option CatFeatures) : CatFeatures :=
  match parsed with
  | none => fallbackFeatures
  | some f => f

/-- Remainder of an identify-cat request after the model call: parse the
response (with the fallback) and resolve against the catalog; only a thrown
error produces the 500 error response. -/
def identifyRequest (parsed : Option CatFeatures) (catalog : List Cat) :
    Except ScoreError (CatFeatures × MatchOutcome) :=
  match resolve (parseFeatures parsed) catalog with
  | .error e => .error e
  | .ok o => .ok (parseFeatures parsed, o)

/-- Failure injection for the individual store/storage calls, to model a
backing service failing mid-write. -/
structure StoreFault where
  failInsertCat : Bool
  failUpdateCat : Bool
  failInsertSighting : Bool
  failUpload : Bool
deriving DecidableEq

/-- Errors surfaced by the store accessors; `foreignKeyViolation` is the
postgres error for inserting a `cat_sightings` row whose `cat_id` does not
reference an existing `cats` row (migration line 64). -/
inductive StoreError where
  | insertCatError
  | updateCatError
  | insertSightingError
  | foreignKeyViolation
deriving DecidableEq

/-- Errors thrown by the `useCats` operations: the explicit
`User not authenticated` throw, or a rethrown store error. -/
inductive AppError where
  | notAuthenticated
  | store (e : StoreError)
deriving DecidableEq

/-- Persisted state: the `cats` and `cat_sightings` tables, each held
most-recent-first, matching the store's natural listing order. -/
structure Store where
  cats : List Cat
  sightings : List CatSighting
deriving DecidableEq

/-- Uploaded image file. -/
structure ImageFile where
  name : String
  data : String
deriving DecidableEq

/-- Record with every field absent: the `aiResult?.features || {}` default
passed by `handleSave` when no extraction result is available. -/
def emptyFeatures : CatFeatures :=
  { breed := none, colors := none, patterns := none,
    distinctive_features := none, estimated_age := none, size := none,
    similarity_score := none }

/-- `INSERT INTO cats ...` (part_003 lines 553-561): prepends the new row. -/
def insertCat (fault : StoreFault) (st : Store) (c : Cat) :
    Except StoreError Store :=
  if fault.failInsertCat then .error .insertCatError
  else .ok { st with cats := c :: st.cats }

/-- `INSERT INTO cat_sightings ...`: enforces the foreign-key constraint
`cat_id REFERENCES cats(id)` of the migration and prepends the new row. -/
def insertSighting (fault : StoreFault) (st : Store) (s : CatSighting) :
    Except StoreError Store :=
  if fault.failInsertSighting then .error .insertSightingError
  else if st.cats.any fun c => c.id == s.cat_id then
    .ok { st with sightings := s :: st.sightings }
  else .error .foreignKeyViolation

/-- `uploadCatImage` of the useCats hook (part_003 lines 520-545): catches
its own storage errors and returns null on failure, a public URL on
success. -/
def uploadCatImage (fault : StoreFault) (file : ImageFile) (catId : String) :
    Option String :=
  if fault.failUpload then none
  else some ("cat-images/" ++ catId ++ "/" ++ file.name)

/-- `UPDATE cats SET image_url = url WHERE id = catId`, with the
`update_cats_updated_at` trigger bumping `updated_at`. -/
def updateCatImage (st : Store) (catId url now : String) : Store :=
  { st with cats := st.cats.map fun c =>
      if c.id == catId then { c with image_url := some url, updated_at := now }
      else c }

/-- `createCat` of the useCats hook (part_003 lines 547-611): throws if no
user is authenticated, then performs, as separate sequential store calls
with no transaction, the cat insert, the image upload (failure swallowed),
the image-url update (skipped when the upload returned null) and the
sighting insert; the first failing call rethrows.  The store state reached
at that point is returned alongside the result, so whatever was already
written stays persisted. -/
def createCat (user : Option String) (name : String) (imageFile : ImageFile)
    (features : CatFeatures) (lat lng : ℚ)
    (newCatId newSightingId now : String) (fault : StoreFault) (st : Store) :
    Except AppError Cat × Store :=
  match user with
  | none => (.error .notAuthenticated, st)
  | some uid =>
    let newCat : Cat :=
      { id := newCatId, name := name, description := none, image_url := none,
        ai_features := some features, created_by := uid,
        created_at := now, updated_at := now }
    match insertCat fault st newCat with
    | .error e => (.error (.store e), st)
    | .ok st1 =>
      match uploadCatImage fault imageFile newCatId with
      | none =>
          match insertSighting fault st1
              { id := newSightingId, cat_id := newCatId, latitude := lat,
                longitude := lng, spotted_by := uid, spotted_at := now,
                notes := none } with
          | .error e => (.error (.store e), st1)
          | .ok st2 => (.ok newCat, st2)
      | some url =>
          if fault.failUpdateCat then (.error (.store .updateCatError), st1)
          else
            match insertSighting fault (updateCatImage st1 newCatId url now)
                { id := newSightingId, cat_id := newCatId, latitude := lat,
                  longitude := lng, spotted_by := uid, spotted_at := now,
                  notes := none } with
            | .error e => (.error (.store e), updateCatImage st1 newCatId url now)
            | .ok st3 => (.ok newCat, st3)

/-- `addSighting` of the useCats hook (part_003 lines 613-644): throws if no
user is authenticated, then inserts one sighting row; an insert error is
rethrown. -/
def addSighting (user : Option String) (catId : String) (lat lng : ℚ)
    (notes : Option String) (newSightingId now : String)
    (fault : StoreFault) (st : Store) : Except AppError Unit × Store :=
  match user with
  | none => (.error .notAuthenticated, st)
  | some uid =>
    match insertSighting fault st
        { id := newSightingId, cat_id := catId, latitude := lat,
          longitude := lng, spotted_by := uid, spotted_at := now,
          notes := notes } with
    | .error e => (.error (.store e), st)
    | .ok st1 => (.ok (), st1)

/-- Failure outcomes of the `handleSave` commit entry point: the
`Name required` and `Photo required` early returns (the ValidationError
cases), or a propagated operation error. -/
inductive SaveError where
  | validationName
  | validationImage
  | app (e : AppError)
deriving DecidableEq

/-- `handleSave` of the profile component (part_003 lines 171-207), the
commit entry point: rejects a blank (after trimming) name or a missing
photo before any write, then either appends a sighting to the confirmed
existing cat or creates a new cat with the extracted features (defaulting
to the empty record). -/
def handleSave (user : Option String) (catName : String)
    (catImage : Option ImageFile) (showExistingCat : Bool)
    (existingCat : Option Cat) (aiFeatures : Option CatFeatures)
    (lat lng : ℚ) (newCatId newSightingId now : String)
    (fault : StoreFault) (st : Store) : Except SaveError Unit × Store :=
  if catName.trim = "" then (.error .validationName, st)
  else
    match catImage with
    | none => (.error .validationImage, st)
    | some img =>
      match showExistingCat, existingCat with
      | true, some ec =>
          match addSighting user ec.id lat lng none newSightingId now fault st with
          | (.error e, st1) => (.error (.app e), st1)
          | (.ok _, st1) => (.ok (), st1)
      | _, _ =>
          match createCat user catName img (aiFeatures.getD emptyFeatures)
              lat lng newCatId newSightingId now fault st with
          | (.error e, st1) => (.error (.app e), st1)
          | (.ok _, st1) => (.ok (), st1)

/-- C2 (source defect, per spec §7/§9): when the model response cannot be
parsed, the extraction step does not signal any error: it substitutes the
fabricated placeholder record (domestic_shorthair / adult / medium) and the
identification request completes as a success value built from those default
features, not as an error outcome. -/
theorem parse_failure_fabricates_record :
    parseFeatures none = fallbackFeatures ∧
    fallbackFeatures.breed = some "domestic_shorthair" ∧
    fallbackFeatures.estimated_age = some "adult" ∧
    fallbackFeatures.size = some "medium" ∧
    identifyRequest none [] = .ok (fallbackFeatures, ⟨none, 0, false⟩) := by
  have hdec : (decide ((70 : ℚ) ≤ 0)) = false := by norm_num
  refine ⟨rfl, rfl, rfl, rfl, ?_⟩
  simp [identifyRequest, resolve, resolveAux, parseFeatures, hdec]

/-- C10: calling `createCat` or `addSighting` without an authenticated user
throws the authentication error before any store write: the result is the
error and the store — both the cat catalog and the sighting log — is
returned unchanged. -/
theorem unauthenticated_no_writes (name : String) (img : ImageFile)
    (features : CatFeatures) (lat lng : ℚ) (catId cid sid now : String)
    (notes : Option String) (fault : StoreFault) (st : Store) :
    createCat none name img features lat lng cid sid now fault st
      = (.error .notAuthenticated, st) ∧
    addSighting none catId lat lng notes sid now fault st
      = (.error .notAuthenticated, st) :=
  ⟨rfl, rfl⟩

/-- C8: appending a sighting with a cat id that resolves to no existing cat
row fails with the foreign-key violation — the UnknownCat outcome — and
performs no writes: the store is returned unchanged. -/
theorem addSighting_unknown_cat (uid catId : String) (lat lng : ℚ)
    (notes : Option String) (sid now : String) (fault : StoreFault)
    (st : Store) (hf : fault.failInsertSighting = false)
    (hX : (st.cats.any fun c => c.id == catId) = false) :
    addSighting (some uid) catId lat lng notes sid now fault st
      = (.error (.store .foreignKeyViolation), st) := by
  simp [addSighting, insertSighting, hf, hX]

theorem addSighting_unknown_cat_witness :
    addSighting (some "user-1") "does-not-exist" 1 2 none "s-1" "t1"
        ⟨false, false, false, false⟩ ⟨[catW], []⟩
      = (.error (.store .foreignKeyViolation), ⟨[catW], []⟩) :=
  addSighting_unknown_cat "user-1" "does-not-exist" 1 2 none "s-1" "t1"
    ⟨false, false, false, false⟩ ⟨[catW], []⟩ rfl (by decide)

/-- C7: every successful append commit creates exactly one new sighting row
referencing the given existing cat id (which must indeed resolve to a cat in
the catalog) and leaves the cats table — hence every cat's features, name
and imageUrl — exactly as it was. -/
theorem addSighting_frame (uid catId : String) (lat lng : ℚ)
    (notes : Option String) (sid now : String) (fault : StoreFault)
    (st : Store)
    (h : (addSighting (some uid) catId lat lng notes sid now fault st).1
      = .ok ()) :
    (addSighting (some uid) catId lat lng notes sid now fault st).2.cats
      = st.cats ∧
    (addSighting (some uid) catId lat lng notes sid now fault st).2.sightings
      = { id := sid, cat_id := catId, latitude := lat, longitude := lng,
          spotted_by := uid, spotted_at := now, notes := notes }
        :: st.sightings ∧
    ((addSighting (some uid) catId lat lng notes sid now fault st).2.sightings.countP
        fun s => s.cat_id == catId)
      = (st.sightings.countP fun s => s.cat_id == catId) + 1 ∧
    (st.cats.any fun c => c.id == catId) = true := by
  by_cases hf : fault.failInsertSighting = true
  · exfalso
    simp [addSighting, insertSighting, hf] at h
  · have hf2 : fault.failInsertSighting = false := by
      simpa using hf
    by_cases hX : (st.cats.any fun c => c.id == catId) = true
    · refine ⟨?_, ?_, ?_, hX⟩ <;>
        simp [addSighting, insertSighting, hf2, hX, List.countP_cons]
    · exfalso
      have hX2 : (st.cats.any fun c => c.id == catId) = false := by
        simpa using hX
      simp [addSighting, insertSighting, hf2, hX2] at h

theorem addSighting_frame_witness :
    ((addSighting (some "user-1") "cat-1" 1 2 none "s-1" "t1"
        ⟨false, false, false, false⟩ ⟨[catW], []⟩).2.cats = [catW]) ∧
    ((addSighting (some "user-1") "cat-1" 1 2 none "s-1" "t1"
        ⟨false, false, false, false⟩ ⟨[catW], []⟩).2.sightings
      = [{ id := "s-1", cat_id := "cat-1", latitude := 1, longitude := 2,
           spotted_by := "user-1", spotted_at := "t1", notes := none }]) :=
  match addSighting_frame "user-1" "cat-1" 1 2 none "s-1" "t1"
      ⟨false, false, false, false⟩ ⟨[catW], []⟩ (by decide) with
  | ⟨h1, h2, _, _⟩ => ⟨h1, h2⟩

/-- C9: the commit entry point run with a name that is blank after trimming
or with no photo fails with the corresponding validation error and performs
no writes: the store is unchanged, so neither a cat row nor a sighting row
is created. -/
theorem handleSave_validation (user : Option String) (catName : String)
    (catImage : Option ImageFile) (showExistingCat : Bool)
    (existingCat : Option Cat) (aiFeatures : Option CatFeatures)
    (lat lng : ℚ) (cid sid now : String) (fault : StoreFault) (st : Store)
    (h : catName.trim = "" ∨ catImage = none) :
    ((handleSave user catName catImage showExistingCat existingCat aiFeatures
        lat lng cid sid now fault st).1 = .error .validationName ∨
      (handleSave user catName catImage showExistingCat existingCat aiFeatures
        lat lng cid sid now fault st).1 = .error .validationImage) ∧
    (handleSave user catName catImage showExistingCat existingCat aiFeatures
        lat lng cid sid now fault st).2 = st := by
  rcases h with h1 | h1
  · simp [handleSave, h1]
  · by_cases h2 : catName.trim = ""
    · simp [handleSave, h2]
    · simp [handleSave, h2, h1]

theorem handleSave_validation_witness :
    (((handleSave (some "user-1") "Luna" none false none
        none 1 2 "cat-9" "s-9" "t1" ⟨false, false, false, false⟩
        ⟨[], []⟩).1 = .error .validationName ∨
      (handleSave (some "user-1") "Luna" none false none
        none 1 2 "cat-9" "s-9" "t1" ⟨false, false, false, false⟩
        ⟨[], []⟩).1 = .error .validationImage) ∧
    (handleSave (some "user-1") "Luna" none false none
        none 1 2 "cat-9" "s-9" "t1" ⟨false, false, false, false⟩
        ⟨[], []⟩).2 = ⟨[], []⟩) :=
  handleSave_validation (some "user-1") "Luna" none
    false none none 1 2 "cat-9" "s-9" "t1" ⟨false, false, false, false⟩
    ⟨[], []⟩ (Or.inr rfl)

lemma exists_id_in_update (st : Store) (catId url now : String) (c : Cat)
    (hc : c ∈ st.cats) (hid : c.id = catId) :
    ∃ d ∈ (updateCatImage st catId url now).cats, d.id = catId := by
  refine ⟨if c.id == catId
      then { c with image_url := some url, updated_at := now } else c,
    ?_, ?_⟩
  · exact List.mem_map_of_mem _ hc
  · split
    · exact hid
    · exact hid

/-- Fault configuration failing only the sighting insert, a concrete
input. -/
def faultSighting : StoreFault :=
  { failInsertCat := false, failUpdateCat := false,
    failInsertSighting := true, failUpload := false }

/-- Image file, a concrete input. -/
def imgW : ImageFile := { name := "captured-cat.jpg", data := "bytes" }

/-- C1 counterexample: starting from an empty store, a `createCat` run in
which only the sighting insert fails reports an error, yet the already
inserted cat row stays persisted with no sighting row at all — the partial
state (cat created, sighting missing) that the claim says can never be
observed. -/
theorem createCat_partial_write_cex :
    ((createCat (some "user-1") "Luna" imgW emptyFeatures 1 2 "cat-9" "s-9"
        "t1" faultSighting ⟨[], []⟩).1
      = .error (.store .insertSightingError)) ∧
    ((createCat (some "user-1") "Luna" imgW emptyFeatures 1 2 "cat-9" "s-9"
        "t1" faultSighting ⟨[], []⟩).2.cats.length = 1) ∧
    ((createCat (some "user-1") "Luna" imgW emptyFeatures 1 2 "cat-9" "s-9"
        "t1" faultSighting ⟨[], []⟩).2.sightings = []) := by
  refine ⟨?_, ?_, ?_⟩ <;> decide

/-- C1 amended: cat creation is not atomic.  The cat insert and the sighting
insert are separate writes: when the cat insert itself fails nothing is
persisted; when the cat insert succeeds but a later step fails, the
operation reports an error while the new cat row remains persisted and the
sighting log is unchanged; on success the cat row and exactly one new
sighting referencing it are both persisted. -/
theorem createCat_write_behavior (uid name : String) (img : ImageFile)
    (features : CatFeatures) (lat lng : ℚ) (cid sid now : String)
    (fault : StoreFault) (st : Store) :
    (fault.failInsertCat = true →
      createCat (some uid) name img features lat lng cid sid now fault st
        = (.error (.store .insertCatError), st)) ∧
    (fault.failInsertCat = false →
      ∀ e, (createCat (some uid) name img features lat lng cid sid now
              fault st).1 = .error e →
        (∃ c ∈ (createCat (some uid) name img features lat lng cid sid now
            fault st).2.cats, c.id = cid) ∧
        (createCat (some uid) name img features lat lng cid sid now
            fault st).2.sightings = st.sightings) ∧
    (∀ cret, (createCat (some uid) name img features lat lng cid sid now
          fault st).1 = .ok cret →
      (∃ c ∈ (createCat (some uid) name img features lat lng cid sid now
          fault st).2.cats, c.id = cid) ∧
      (createCat (some uid) name img features lat lng cid sid now
          fault st).2.sightings
        = { id := sid, cat_id := cid, latitude := lat, longitude := lng,
            spotted_by := uid, spotted_at := now, notes := none }
          :: st.sightings) := by
  obtain ⟨fc, fu, fs, fl⟩ := fault
  refine ⟨?_, ?_, ?_⟩
  · intro hfc
    subst hfc
    rfl
  · intro hfc e herr
    subst hfc
    cases fl with
    | true =>
        cases fs with
        | true =>
            exact ⟨⟨_, List.mem_cons_self _ _, rfl⟩, rfl⟩
        | false =>
            exfalso
            simp [createCat, insertCat, insertSighting, uploadCatImage] at herr
    | false =>
        cases fu with
        | true =>
            exact ⟨⟨_, List.mem_cons_self _ _, rfl⟩, rfl⟩
        | false =>
            cases fs with
            | true =>
                refine ⟨?_, rfl⟩
                exact exists_id_in_update _ _ _ _ _
                  (List.mem_cons_self _ _) rfl
            | false =>
                exfalso
                simp [createCat, insertCat, insertSighting, uploadCatImage,
                  updateCatImage] at herr
  · intro cret hret
    cases fc with
    | true =>
        exfalso
        simp [createCat, insertCat] at hret
    | false =>
        cases fs with
        | true =>
            exfalso
            cases fl with
            | true =>
                simp [createCat, insertCat, insertSighting,
                  uploadCatImage] at hret
            | false =>
                cases fu with
                | true => simp [createCat, insertCat, uploadCatImage] at hret
                | false =>
                    simp [createCat, insertCat, insertSighting,
                      uploadCatImage, updateCatImage] at hret
        | false =>
            cases fl with
            | true =>
                constructor
                · have h1 : (createCat (some uid) name img features lat lng
                      cid sid now ⟨false, fu, false, true⟩ st).2.cats
                      = { id := cid, name := name, description := none,
                          image_url := none, ai_features := some features,
                          created_by := uid, created_at := now,
                          updated_at := now } :: st.cats := by
                    simp [createCat, insertCat, insertSighting, uploadCatImage]
                  rw [h1]
                  exact ⟨_, List.mem_cons_self _ _, rfl⟩
                · simp [createCat, insertCat, insertSighting, uploadCatImage]
            | false =>
                cases fu with
                | true =>
                    exfalso
                    simp [createCat, insertCat, uploadCatImage] at hret
                | false =>
                    constructor
                    · have h1 : (createCat (some uid) name img features lat lng
                          cid sid now ⟨false, false, false, false⟩ st).2.cats
                          = (updateCatImage
                              { st with cats :=
                                { id := cid, name := name, description := none,
                                  image_url := none,
                                  ai_features := some features,
                                  created_by := uid, created_at := now,
                                  updated_at := now } :: st.cats }
                              cid ("cat-images/" ++ cid ++ "/" ++ img.name)
                              now).cats := by
                        simp [createCat, insertCat, insertSighting,
                          uploadCatImage, updateCatImage]
                      rw [h1]
                      exact exists_id_in_update _ _ _ _ _
                        (List.mem_cons_self _ _) rfl
                    · simp [createCat, insertCat, insertSighting,
                        uploadCatImage, updateCatImage]

theorem createCat_write_behavior_witness :
    createCat (some "user-1") "Luna" imgW emptyFeatures 1 2 "cat-9" "s-9"
        "t1" ⟨true, false, false, false⟩ ⟨[], []⟩
      = (.error (.store .insertCatError), ⟨[], []⟩) :=
  (createCat_write_behavior "user-1" "Luna" imgW emptyFeatures 1 2 "cat-9"
    "s-9" "t1" ⟨true, false, false, false⟩ ⟨[], []⟩).1 rfl

end Purrfect
